import Mathlib

/-!
Verification development for the 2ndmynd model-lifecycle subsystem.

Shallow embedding of the feature codec, the ranking and safety metrics,
the regression gate, the model-store version resolution, the calibrator
target extraction, and the cohort-engine data loading, translated from
the Python sources under `packages/learning/scripts`, `src/lib/learning`
and `packages/cohort_engine`.  Floating-point numbers are modelled as
rationals with an explicit not-a-number marker where NaN matters.
-/

namespace Spec2Proof

/-! ## Feature values and the single-example codec
    (`packages/learning/scripts/feature_schema.py`) -/

/-- A JSON-ish feature value as seen by `encode_value`: Python `None`
(absent keys and explicit nulls), booleans, finite numbers, the float
`nan`, and strings. -/
inductive FVal where
  | vNone : FVal
  | vBool : Bool → FVal
  | vNum : ℚ → FVal
  | vNaN : FVal
  | vStr : String → FVal
  deriving DecidableEq, Repr

/-- Result of encoding one value: a finite float or `nan`
(Python `float(value)` maps the float `nan` to itself). -/
inductive EncVal where
  | fin : ℚ → EncVal
  | nan : EncVal
  deriving DecidableEq, Repr

/-- `FEATURE_KEYS` from `feature_schema.py`: the canonical ordered key list. -/
def FEATURE_KEYS : List String :=
  ["industry_key", "source", "window_rule", "window_days", "coverage_ratio",
   "mapping_confidence_level", "missingness_score", "quotes_count",
   "invoices_count", "paid_invoices_count", "calendar_events_count",
   "active_days_count", "quotes_per_active_day", "invoices_per_active_day",
   "paid_invoice_rate", "quote_to_invoice_rate", "has_quotes", "has_invoices",
   "has_calendar", "decision_lag_days_p50", "decision_lag_days_p90",
   "approved_to_scheduled_days_p50", "approved_to_scheduled_days_p90",
   "invoiced_to_paid_days_p50", "invoiced_to_paid_days_p90",
   "has_decision_lag", "has_approved_to_scheduled", "has_invoiced_to_paid",
   "invoice_total_sum_log", "invoice_total_p50_log", "invoice_total_p90_log",
   "top1_invoice_share", "top5_invoice_share", "gini_proxy",
   "mid_ticket_share", "has_amounts", "weekly_volume_mean",
   "weekly_volume_cv", "seasonality_strength", "has_rhythm",
   "open_quotes_count", "open_quotes_share", "has_open_quotes",
   "excluded_quotes_outside_window", "excluded_invoices_outside_window",
   "excluded_calendar_outside_window", "excluded_ratio",
   "date_parse_error_rate"]

/-- `STRING_ENCODERS` from `feature_schema.py`: per-key categorical tables. -/
def STRING_ENCODERS : List (String × List (String × Nat)) :=
  [("industry_key",
    [("unknown", 0), ("hvac", 1), ("plumbing", 2), ("electrical", 3),
     ("landscaping", 4), ("cleaning", 5)]),
   ("source", [("mock", 0), ("real", 1)]),
   ("window_rule",
    [("last_90_days", 0), ("cap_100_closed", 1), ("last_12_months", 2),
     ("custom", 3)])]

/-- Association-list lookup, the model of Python `dict.get`. -/
def alistGet {α : Type} (m : List (String × α)) (k : String) : Option α :=
  (m.find? (fun p => p.1 == k)).map (fun p => p.2)

/-- `encode_value` from `feature_schema.py`:
`None → 0.0`; `bool → 1.0/0.0`; numeric → `float(value)` (so `nan` stays
`nan`); strings → categorical table lookup with default `0`, or `0.0`
when the key has no table. -/
def encode_value (key : String) (value : FVal) : EncVal :=
  match value with
  | .vNone => .fin 0
  | .vBool b => .fin (if b then 1 else 0)
  | .vNum x => .fin x
  | .vNaN => .nan
  | .vStr s =>
    match alistGet STRING_ENCODERS key with
    | some mapping => .fin ((alistGet mapping s).getD 0 : Nat)
    | none => .fin 0

/-- A feature mapping: association list modelling a Python dict.
`dictGet` is `features.get(key)` — absent keys read as `None`. -/
def dictGet (features : List (String × FVal)) (k : String) : FVal :=
  ((features.find? (fun p => p.1 == k)).map (fun p => p.2)).getD .vNone

/-- `vectorize_features` from `feature_schema.py`: one encoded value per
schema key, in `FEATURE_KEYS` order. -/
def vectorize_features (features : List (String × FVal)) : List EncVal :=
  FEATURE_KEYS.map (fun key => encode_value key (dictGet features key))

/-- `np.nan_to_num(·, nan=0.0)` applied to a single encoded cell, as in
`packages/cohort_engine/infer_cohort.py`. -/
def nanToNum (v : EncVal) : ℚ :=
  match v with
  | .fin x => x
  | .nan => 0

/-- The single-example feature extraction of `infer_cohort`
(`packages/cohort_engine/infer_cohort.py` lines 87–100): for each model
feature key, absent → `0.0`, else `float(value)`; then the whole row
goes through `np.nan_to_num(·, nan=0.0)`.  The cohort model's keys are
numeric, so values here are finite numbers or `nan`. -/
def inferCohortRow (featureKeys : List String)
    (features : List (String × EncVal)) : List ℚ :=
  featureKeys.map (fun key =>
    nanToNum ((alistGet features key).getD (.fin 0)))

/-! ## `np.argsort` and top-3 selection

`np.argsort(score_row)[-3:]` ranks indices by ascending score.  NumPy's
default sort leaves ties in input order on the small arrays used here
(its small-array path is a stable insertion sort), so `argsort` is
modelled as sorting the index list by the lexicographic order
(score ascending, then index ascending), which is exactly the stable
ascending argsort. -/

/-- Score of index `i` in a score row. -/
def scoreAt (s : List ℚ) (i : Nat) : ℚ := s.getD i 0

/-- The ascending-argsort ordering on indices: by score, ties by index. -/
def argsortLe (s : List ℚ) (i j : Nat) : Prop :=
  scoreAt s i < scoreAt s j ∨ (scoreAt s i = scoreAt s j ∧ i ≤ j)

instance (s : List ℚ) : DecidableRel (argsortLe s) := fun i j => by
  unfold argsortLe; infer_instance

instance (s : List ℚ) : IsTotal Nat (argsortLe s) := by
  constructor
  intro i j
  rcases lt_trichotomy (scoreAt s i) (scoreAt s j) with h | h | h
  · exact Or.inl (Or.inl h)
  · rcases Nat.le_total i j with hle | hle
    · exact Or.inl (Or.inr ⟨h, hle⟩)
    · exact Or.inr (Or.inr ⟨h.symm, hle⟩)
  · exact Or.inr (Or.inl h)

instance (s : List ℚ) : IsTrans Nat (argsortLe s) := by
  constructor
  intro i j k hij hjk
  rcases hij with h1 | ⟨e1, l1⟩
  · rcases hjk with h2 | ⟨e2, _⟩
    · exact Or.inl (h1.trans h2)
    · exact Or.inl (e2 ▸ h1)
  · rcases hjk with h2 | ⟨e2, l2⟩
    · exact Or.inl (e1 ▸ h2)
    · exact Or.inr ⟨e1.trans e2, l1.trans l2⟩

/-- `np.argsort(s)`: the indices `0, …, len s - 1` sorted by ascending
score, ties kept in index order (stable). -/
def argsortAsc (s : List ℚ) : List Nat :=
  List.insertionSort (argsortLe s) (List.range s.length)

/-- `np.argsort(s)[-3:]`: the last three entries of the ascending
argsort (the whole list when it has fewer than three entries), exactly
as Python slicing behaves. -/
def topK3 (s : List ℚ) : List Nat :=
  (argsortAsc s).drop ((argsortAsc s).length - 3)

/-- `np.argsort(s)[-3:][::-1]`: the top-3 indices in descending rank
order, as used by the pressure-selector inference path. -/
def top3Desc (s : List ℚ) : List Nat := (topK3 s).reverse

example : argsortAsc [10, 30, 20] = [0, 2, 1] := by decide
example : argsortAsc [5, 5, 5, 5] = [0, 1, 2, 3] := by decide
example : topK3 [5, 5, 5, 5] = [1, 2, 3] := by decide
example : top3Desc [5, 5, 5, 5] = [3, 2, 1] := by decide
example : topK3 [4, 7] = [0, 1] := by decide

/-! ## `precision_recall_at_3`
    (`packages/learning/scripts/evaluate.py` lines 39–52 and the
    identical function in `train_pressure_selector.py` lines 38–51) -/

/-- Position-indexed scan behind `trueIndices`. -/
def trueIndicesAux : Nat → List Nat → List Nat
  | _, [] => []
  | i, x :: xs =>
    if x == 1 then i :: trueIndicesAux (i + 1) xs else trueIndicesAux (i + 1) xs

/-- `np.where(true_row == 1)[0]`: indices of the active tags in a binary
true-label row. -/
def trueIndices (trueRow : List Nat) : List Nat :=
  trueIndicesAux 0 trueRow

/-- `len(set(top_k) & set(true_indices))`: the top-3 indices of the
score row that are truly active (`topK3` has no duplicates, so counting
is intersection size). -/
def hitsAt3 (trueRow : List Nat) (scoreRow : List ℚ) : Nat :=
  ((topK3 scoreRow).filter (fun i => i ∈ trueIndices trueRow)).length

/-- `np.mean` of a list of floats. -/
def listMean (l : List ℚ) : ℚ := l.sum / l.length

/-- The accumulation loop of `precision_recall_at_3`: walk the zipped
(true row, score row) pairs, skip rows with no active tag, and collect
`hits / 3.0` and `hits / len(true_indices)`. -/
def prLists : List (List Nat × List ℚ) → List ℚ × List ℚ
  | [] => ([], [])
  | (t, s) :: rest =>
    let tail := prLists rest
    if trueIndices t = [] then tail
    else ((hitsAt3 t s : ℚ) / 3 :: tail.1,
          (hitsAt3 t s : ℚ) / (trueIndices t).length :: tail.2)

/-- `precision_recall_at_3(y_true, y_scores)`: `(0.0, 0.0)` when no row
was scored, otherwise the means of the collected precision and recall
terms. -/
def precision_recall_at_3 (pairs : List (List Nat × List ℚ)) : ℚ × ℚ :=
  let acc := prLists pairs
  if acc.1 = [] then (0, 0) else (listMean acc.1, listMean acc.2)

/-- Spec-side reading of the claim: the scored examples are those whose
true active set is nonempty. -/
def scoredExamples (pairs : List (List Nat × List ℚ)) :
    List (List Nat × List ℚ) :=
  pairs.filter (fun p => !((trueIndices p.1).isEmpty))

example :
    precision_recall_at_3 [([1, 0, 1, 0], [9, 1, 8, 2]), ([0, 0, 0, 0], [5, 5, 5, 5])] =
      (2 / 3, 1) := by
  have h1 : hitsAt3 [1, 0, 1, 0] [9, 1, 8, 2] = 2 := by decide
  have h2 : trueIndices [1, 0, 1, 0] = [0, 2] := by decide
  have h3 : trueIndices [0, 0, 0, 0] = [] := by decide
  simp [precision_recall_at_3, prLists, h1, h2, h3, listMean]
example : precision_recall_at_3 [([0, 0], [1, 2])] = (0, 0) := by
  have h : trueIndices [0, 0] = [] := by decide
  simp [precision_recall_at_3, prLists, h]

/-! ## False-safe rate

Three computations report a false-safe rate:
* `train_boundary_classifier` in `src/lib/learning/train.py` (lines
  279–289) and `evaluate_boundary_classifier` in
  `src/lib/learning/evaluate.py` (lines 219–228) run the identical loop
  over class-index pairs: the denominator counts true labels different
  from both `class_to_idx["stable"]` and `class_to_idx["unknown"]`, the
  numerator additionally requires the prediction to be
  `class_to_idx["stable"]`;
* `evaluate_boundary` in `packages/learning/scripts/evaluate.py` (lines
  157–159) works on label strings and counts only
  `true == "confirm_mappings"` in the denominator. -/

/-- `class_names` fixed in `src/lib/learning/train.py`. -/
def class_names : List String :=
  ["confirm_mappings", "needs_followup", "stable", "unknown"]

/-- `class_to_idx = {c: i for i, c in enumerate(class_names)}` followed
by `class_to_idx[c]`. -/
def class_to_idx (c : String) : Nat := class_names.indexOf c

/-- The false-safe loop of `train.py` / `src/lib/learning/evaluate.py`,
returning `(total_unsafe, false_safe_count)` over class-index pairs. -/
def falseSafeCounts : List (Nat × Nat) → Nat × Nat
  | [] => (0, 0)
  | (t, p) :: rest =>
    let acc := falseSafeCounts rest
    if t ≠ class_to_idx "stable" ∧ t ≠ class_to_idx "unknown" then
      if p = class_to_idx "stable" then (acc.1 + 1, acc.2 + 1)
      else (acc.1 + 1, acc.2)
    else acc

/-- `false_safe_rate` as computed by the training harness and by the
library evaluator: `false_safe_count / total_unsafe` when
`total_unsafe > 0`, else `0.0`. -/
def lib_false_safe_rate (pairs : List (Nat × Nat)) : ℚ :=
  let acc := falseSafeCounts pairs
  if acc.1 > 0 then (acc.2 : ℚ) / acc.1 else 0

/-- `false_safe_rate` as computed by `evaluate_boundary` in
`packages/learning/scripts/evaluate.py`: denominator
`sum(1 for label in y_true if label == "confirm_mappings")`, numerator
`sum(1 for t, p in zip(y_true, y_pred) if t == "confirm_mappings" and
p == "stable")`. -/
def scripts_false_safe_rate (pairs : List (String × String)) : ℚ :=
  let confirmTotal := (pairs.filter (fun p => p.1 == "confirm_mappings")).length
  let falseSafe :=
    (pairs.filter (fun p => p.1 == "confirm_mappings" && p.2 == "stable")).length
  if confirmTotal > 0 then (falseSafe : ℚ) / confirmTotal else 0

/-- The spec's definition of the false-safe rate over label pairs:
numerator = examples whose true class is neither "stable" nor "unknown"
but predicted "stable"; denominator = examples whose true class is
neither "stable" nor "unknown"; defined as `0.0` on an empty
denominator. -/
def spec_false_safe_rate (pairs : List (String × String)) : ℚ :=
  let unsafe_ := pairs.filter (fun p => p.1 ≠ "stable" ∧ p.1 ≠ "unknown")
  let fs := unsafe_.filter (fun p => p.2 = "stable")
  if unsafe_.length > 0 then (fs.length : ℚ) / unsafe_.length else 0

/-! ## The regression gate (`packages/learning/scripts/evaluate.py`,
    `main`, lines 280–292) -/

/-- One entry of `regression_details`.  The source appends formatted
strings; the constructors carry the same data those strings report. -/
inductive GateDetail where
  | falseSafeExceeds : ℚ → GateDetail
  | precisionDrop : ℚ → GateDetail
  | noTriggers : GateDetail
  deriving DecidableEq, Repr

/-- The gate inputs: the boundary summary reduced to its false-safe rate
(`none` when no boundary model was found) and the pressure summary
reduced to `(precision_at_3, previous_precision_at_3)` (`none` when no
pressure model was found). -/
def regressionGate (boundary : Option ℚ) (pressure : Option (ℚ × Option ℚ)) :
    String × List GateDetail :=
  let falseSafeRate := match boundary with | some r => r | none => 0
  let st1 : String × List GateDetail :=
    if falseSafeRate > 2 / 100 then
      ("FAIL", [GateDetail.falseSafeExceeds falseSafeRate])
    else ("PASS", [])
  let st2 : String × List GateDetail :=
    match pressure with
    | some (cur, some prev) =>
      if prev - cur > 5 / 100 then
        ("FAIL", st1.2 ++ [GateDetail.precisionDrop (prev - cur)])
      else st1
    | _ => st1
  if st2.2 = [] then (st2.1, [GateDetail.noTriggers]) else st2

/-- The claim's reading of the gate: FAIL exactly when a trigger fired
(false-safe rate above 0.02, or a recorded previous precision@3 more
than 0.05 above the current one); the details name each triggered
condition, or state that no trigger fired. -/
def claimedGate (boundary : Option ℚ) (pressure : Option (ℚ × Option ℚ)) :
    String × List GateDetail :=
  let falseSafeRate := match boundary with | some r => r | none => 0
  let triggers :=
    (if falseSafeRate > 2 / 100 then
       [GateDetail.falseSafeExceeds falseSafeRate]
     else []) ++
    (match pressure with
     | some (cur, some prev) =>
       if prev - cur > 5 / 100 then [GateDetail.precisionDrop (prev - cur)]
       else []
     | _ => [])
  if triggers = [] then ("PASS", [GateDetail.noTriggers])
  else ("FAIL", triggers)

/-! ## Model-store version resolution
    (`packages/learning/scripts/evaluate.py`, lines 13–32) -/

/-- Lexicographic comparison of character lists by code point, the
order Python uses on strings. -/
def charListLe : List Char → List Char → Bool
  | [], _ => true
  | _ :: _, [] => false
  | x :: xs, y :: ys =>
    if x.val.toNat < y.val.toNat then true
    else if y.val.toNat < x.val.toNat then false
    else charListLe xs ys

/-- Lexicographic string comparison by code point. -/
def strLe (a b : String) : Bool := charListLe a.data b.data

/-- `strLe` as a relation, for sorting. -/
def strLeRel (a b : String) : Prop := strLe a b = true

instance : DecidableRel strLeRel := fun a b => by
  unfold strLeRel; infer_instance

theorem charListLe_refl : ∀ xs, charListLe xs xs = true
  | [] => rfl
  | x :: xs => by
    unfold charListLe
    simp [charListLe_refl xs]

theorem charListLe_total : ∀ xs ys,
    charListLe xs ys = true ∨ charListLe ys xs = true
  | [], _ => Or.inl rfl
  | _ :: _, [] => Or.inr rfl
  | x :: xs, y :: ys => by
    unfold charListLe
    by_cases h1 : x.val.toNat < y.val.toNat
    · left; simp [h1]
    · by_cases h2 : y.val.toNat < x.val.toNat
      · right; simp [h2]
      · rcases charListLe_total xs ys with h | h
        · left; simp [h1, h2, h]
        · right; simp [h1, h2, h]

theorem charListLe_trans : ∀ xs ys zs, charListLe xs ys = true →
    charListLe ys zs = true → charListLe xs zs = true
  | [], _, _, _, _ => rfl
  | _ :: _, [], _, h1, _ => by simp [charListLe] at h1
  | _ :: _, _ :: _, [], _, h2 => by simp [charListLe] at h2
  | x :: xs, y :: ys, z :: zs, h1, h2 => by
    unfold charListLe at h1 h2 ⊢
    by_cases a1 : x.val.toNat < y.val.toNat
    · by_cases a2 : y.val.toNat < z.val.toNat
      · simp [Nat.lt_trans a1 a2]
      · by_cases a3 : z.val.toNat < y.val.toNat
        · simp [a2, a3] at h2
        · have : x.val.toNat < z.val.toNat := by omega
          simp [this]
    · by_cases a4 : y.val.toNat < x.val.toNat
      · simp [a1, a4] at h1
      · by_cases a2 : y.val.toNat < z.val.toNat
        · have : x.val.toNat < z.val.toNat := by omega
          simp [this]
        · by_cases a3 : z.val.toNat < y.val.toNat
          · simp [a2, a3] at h2
          · have e1 : ¬x.val.toNat < z.val.toNat := by omega
            have e2 : ¬z.val.toNat < x.val.toNat := by omega
            simp [a1, a4] at h1
            simp [a2, a3] at h2
            exact by simp [e1, e2, charListLe_trans xs ys zs h1 h2]

instance : IsTotal String strLeRel :=
  ⟨fun a b => charListLe_total a.data b.data⟩

instance : IsTrans String strLeRel :=
  ⟨fun _ _ _ h1 h2 => charListLe_trans _ _ _ h1 h2⟩

instance : IsRefl String strLeRel := ⟨fun a => charListLe_refl a.data⟩

/-- `sorted(...)` over version-directory names (Python sorts paths that
share a parent by their final component, i.e. lexicographically by
name). -/
def sortedVersions (versions : List String) : List String :=
  List.insertionSort strLeRel versions

/-- `latest_model_dir`: sort the family's version directories and take
the last, `None` when there are none.  A family whose root directory is
missing is modelled by the empty version list (both return `None`). -/
def latest_model_dir (versions : List String) : Option String :=
  (sortedVersions versions).getLast?

/-- `previous_model_dir`: if `current` is among the sorted versions and
has a positive index, return its predecessor; otherwise fall through to
the second-to-last version when at least two exist, else `None`. -/
def previous_model_dir (versions : List String) (current : String) :
    Option String :=
  let vs := sortedVersions versions
  if current ∈ vs ∧ vs.indexOf current > 0 then
    vs.get? (vs.indexOf current - 1)
  else if vs.length ≥ 2 then vs.get? (vs.length - 2)
  else none

/-- The claim's reading of `previous_version`: the version immediately
preceding `current` in sorted order when `current` is recorded (none
when it has no predecessor), or the second-to-last recorded version when
`current` is not recorded, or none when no such version exists. -/
def claimed_previous_version (versions : List String) (current : String) :
    Option String :=
  let vs := sortedVersions versions
  if current ∈ vs then
    if vs.indexOf current > 0 then vs.get? (vs.indexOf current - 1) else none
  else if vs.length ≥ 2 then vs.get? (vs.length - 2)
  else none

example : latest_model_dir ["20250103", "20250101", "20250102"] =
    some "20250103" := by decide
example : previous_model_dir ["a", "b", "c"] "c" = some "b" := by decide
example : previous_model_dir ["a", "b", "c"] "a" = some "b" := by decide
example : claimed_previous_version ["a", "b", "c"] "a" = none := by decide
example : previous_model_dir ["a", "b", "c"] "zz" = some "b" := by decide

/-! ## Pressure-selector inference (`src/lib/learning/infer.py`,
    `main`, lines 88–98) -/

/-- `top_indices = np.argsort(scores)[-3:][::-1]` followed by
`[pressure_keys[i] for i in top_indices]`. -/
def inferPressureTop3 (pressureKeys : List String) (scores : List ℚ) :
    List String :=
  (top3Desc scores).map (fun i => pressureKeys.getD i emptyKey)
where
  /-- placeholder for an out-of-range index, which the source never
  hits because the score row has one column per stored key -/
  emptyKey : String := ""

/-- The claim's reading of the pressure top-3: rank the indices by score
descending with ties broken by the tag's (ascending) position in the
stored tag list, then take the first three. -/
def claimedPressureTop3 (pressureKeys : List String) (scores : List ℚ) :
    List String :=
  ((List.insertionSort
      (fun i j => scoreAt scores j < scoreAt scores i ∨
        (scoreAt scores i = scoreAt scores j ∧ i ≤ j))
      (List.range scores.length)).take 3).map
    (fun i => pressureKeys.getD i inferPressureTop3.emptyKey)

example : inferPressureTop3 ["a", "b", "c", "d"] [1, 1, 1, 1] =
    ["d", "c", "b"] := by decide
example : claimedPressureTop3 ["a", "b", "c", "d"] [1, 1, 1, 1] =
    ["a", "b", "c"] := by decide
example : inferPressureTop3 ["a", "b", "c", "d"] [5, 9, 7, 8] =
    ["b", "d", "c"] := by decide

/-! ## Calibrator target extraction

* `train_calibrator` in `src/lib/learning/train.py` (lines 108–116) and
  `evaluate_calibrator` in `src/lib/learning/evaluate.py`: per example,
  target is `np.mean([m["percentile"] for m in metrics])` when the
  `benchmark_metrics` list is nonempty, else the neutral `50.0`;
* `extract_targets` in `packages/learning/scripts/train_calibrator.py`
  (lines 20–32): examples whose `benchmark` list is empty, or whose
  observations carry no numeric `percentile`, are skipped entirely;
  kept examples get the mean of their numeric percentile values. -/

/-- The `percentile` field of one benchmark observation, as
`m.get("percentile")` sees it.  Python's `isinstance(·, (int, float))`
accepts booleans (a `bool` is an `int`). -/
inductive PField where
  | pNum : ℚ → PField
  | pBool : Bool → PField
  | pStr : String → PField
  | pNone : PField
  deriving DecidableEq, Repr

/-- `[m.get("percentile") for m in benchmarks if isinstance(..., (int,
float))]`, with booleans arithmetically 1/0. -/
def numericPercentiles (obs : List PField) : List ℚ :=
  obs.filterMap (fun f =>
    match f with
    | .pNum q => some q
    | .pBool b => some (if b then 1 else 0)
    | _ => none)

/-- The per-example target of `train_calibrator` in
`src/lib/learning/train.py`: each example is reduced to its list of
percentile values; nonempty → mean, empty → `50.0`. -/
def lib_calibrator_targets (exs : List (List ℚ)) : List ℚ :=
  exs.map (fun ms => if ms ≠ [] then listMean ms else 50)

/-- `extract_targets` of
`packages/learning/scripts/train_calibrator.py`: walk the examples,
skip those with an empty `benchmark` list, skip those with no numeric
percentile, and pair each kept example with the mean of its numeric
percentile values (`sum / len`). -/
def extract_targets (exs : List (List PField)) :
    List (List PField × ℚ) :=
  match exs with
  | [] => []
  | obs :: rest =>
    if obs = [] then extract_targets rest
    else
      let ps := numericPercentiles obs
      if ps = [] then extract_targets rest
      else (obs, ps.sum / ps.length) :: extract_targets rest

/-! ## Cohort-engine data loading
    (`packages/cohort_engine/train_cohorts.py` lines 105–115 and
    `packages/cohort_engine/evaluate_cohorts.py` lines 77–81) -/

/-- `key in features` for an association-list dict. -/
def hasKey (features : List (String × EncVal)) (k : String) : Bool :=
  (features.find? (fun p => p.1 == k)).isSome

/-- The row built for one accepted example:
`{key: features[key] for key in FEATURE_KEYS}` read back in key order. -/
def cohortRow (keys : List String) (features : List (String × EncVal)) :
    List EncVal :=
  keys.map (fun k => (alistGet features k).getD (.fin 0))

/-- The loading loop shared by `train_cohorts.py` and
`evaluate_cohorts.py`: an example contributes a row exactly when
`all(key in features for key in FEATURE_KEYS)`; all other examples are
skipped. -/
def load_training_rows (keys : List String) :
    List (List (String × EncVal)) → List (List EncVal)
  | [] => []
  | ex :: rest =>
    if keys.all (fun k => hasKey ex k) then
      cohortRow keys ex :: load_training_rows keys rest
    else load_training_rows keys rest

/-- `np.nanmedian` of one column: the median of the non-NaN values,
`nan` when every value is NaN (NumPy's nanmedian of an all-NaN column). -/
def nanmedian (col : List EncVal) : EncVal :=
  let vals := col.filterMap (fun v => match v with | .fin q => some q | .nan => none)
  if vals = [] then .nan
  else
    let s := List.insertionSort (fun a b => a ≤ b) vals
    if s.length % 2 = 1 then .fin (s.getD (s.length / 2) 0)
    else .fin ((s.getD (s.length / 2 - 1) 0 + s.getD (s.length / 2) 0) / 2)

/-- Column `j` of a row-major matrix. -/
def colAt (rows : List (List EncVal)) (j : Nat) : List EncVal :=
  rows.map (fun r => r.getD j (.fin 0))

/-- The imputation loop `X[np.isnan(X[:, i]), i] = medians[i]`: every
NaN cell is replaced by its column's nanmedian; finite cells are
untouched. -/
def imputeMatrix (rows : List (List EncVal)) : List (List EncVal) :=
  rows.map (fun r =>
    (r.enum).map (fun p =>
      match p.2 with
      | .fin q => EncVal.fin q
      | .nan => nanmedian (colAt rows p.1)))

example : encode_value "source" (.vStr "real") = .fin 1 := by decide
example : encode_value "source" (.vStr "telepathy") = .fin 0 := by decide
example : encode_value "coverage_ratio" (.vStr "oops") = .fin 0 := by decide
example : encode_value "window_days" .vNaN = .nan := by decide
example : nanToNum (encode_value "window_days" .vNaN) = 0 := by decide
example :
    inferCohortRow ["a", "b", "c"] [("a", .nan), ("c", .fin 7)] =
      [0, 0, 7] := by decide

/-! ## Theorems for the claims -/

/-- C6: the single-example codec encodes an absent value as 0.0, a
boolean as 1.0/0.0, a numeric value as its floating-point cast with NaN
coerced to 0.0 by the inference path's `nan_to_num` step, a string with
a categorical table as the table's code defaulting to 0 for unseen
strings, and any other string as 0.0; the output vector lists these
encodings in schema key order. -/
theorem C6_single_example_codec :
    (∀ fs, vectorize_features fs =
      FEATURE_KEYS.map (fun key => encode_value key (dictGet fs key)))
    ∧ (∀ key, encode_value key .vNone = .fin 0)
    ∧ (∀ key b, encode_value key (.vBool b) = .fin (if b then 1 else 0))
    ∧ (∀ key q, encode_value key (.vNum q) = .fin q)
    ∧ (∀ key, encode_value key .vNaN = .nan ∧
        nanToNum (encode_value key .vNaN) = 0)
    ∧ (∀ key s, encode_value key (.vStr s) =
        .fin (match alistGet STRING_ENCODERS key with
              | some tbl => ((alistGet tbl s).getD 0 : Nat)
              | none => 0))
    ∧ encode_value "industry_key" (.vStr "plumbing") = .fin 2
    ∧ encode_value "industry_key" (.vStr "masonry") = .fin 0
    ∧ encode_value "window_days" (.vStr "oops") = .fin 0
    ∧ (∀ keys features, inferCohortRow keys features =
        keys.map (fun k =>
          match alistGet features k with
          | some (.fin q) => q
          | _ => 0)) := by
  refine ⟨fun fs => rfl, fun key => rfl, fun key b => rfl, fun key q => rfl,
    fun key => ⟨rfl, rfl⟩, ?_, by decide, by decide, by decide, ?_⟩
  · intro key s
    cases h : alistGet STRING_ENCODERS key <;> simp [encode_value, h]
  · intro keys features
    unfold inferCohortRow
    apply List.map_congr_left
    intro k _
    cases h : alistGet features k with
    | none => simp [h, nanToNum]
    | some v => cases v <;> simp [h, nanToNum]

/-- C9: encoding is deterministic (a pure function of the mapping) and
invariant under the iteration order of the mapping: two feature
mappings equal as key-to-value functions produce the same vector. -/
theorem C9_codec_deterministic_order_invariant :
    (∀ m, vectorize_features m = vectorize_features m)
    ∧ ∀ m1 m2, (∀ k, dictGet m1 k = dictGet m2 k) →
        vectorize_features m1 = vectorize_features m2 := by
  refine ⟨fun m => rfl, fun m1 m2 h => ?_⟩
  unfold vectorize_features
  apply List.map_congr_left
  intro k _
  rw [h k]

/-- Witness for C9 at a concrete input: the same two-key mapping listed
in both orders encodes to the same vector. -/
theorem C9_witness :
    vectorize_features [("source", .vStr "real"), ("window_days", .vNum 90)] =
      vectorize_features [("window_days", .vNum 90), ("source", .vStr "real")] := by
  apply C9_codec_deterministic_order_invariant.2
  intro k
  by_cases h1 : ("source" : String) = k
  · subst h1; decide
  · by_cases h2 : ("window_days" : String) = k
    · subst h2; decide
    · have e1 : (("source" : String) == k) = false := beq_eq_false_iff_ne.mpr h1
      have e2 : (("window_days" : String) == k) = false := beq_eq_false_iff_ne.mpr h2
      simp [dictGet, List.find?, e1, e2]

/-- The accumulation loop of `precision_recall_at_3` collects exactly
one precision term and one recall term per scored example (those whose
true active set is nonempty), in order. -/
theorem prLists_eq_maps (pairs : List (List Nat × List ℚ)) :
    prLists pairs =
      ((scoredExamples pairs).map (fun p => (hitsAt3 p.1 p.2 : ℚ) / 3),
       (scoredExamples pairs).map
         (fun p => (hitsAt3 p.1 p.2 : ℚ) / (trueIndices p.1).length)) := by
  induction pairs with
  | nil => rfl
  | cons hd tl ih =>
    obtain ⟨t, s⟩ := hd
    by_cases h : trueIndices t = []
    · simp [prLists, scoredExamples, h, ih, List.filter]
    · have hb : ((trueIndices t).isEmpty : Bool) = false := by
        simpa [List.isEmpty_iff] using h
      simp [prLists, scoredExamples, h, ih, List.filter, hb]

/-- C3: precision@3 and recall@3 are per-example `hits/3` and
`hits/|true set|` over the top-3 scored indices; every example with an
empty true active set is excluded from both aggregates (contributing
neither a term nor a count), and the reported pair is the mean over the
remaining scored examples. -/
theorem C3_precision_recall_at_3 (pairs : List (List Nat × List ℚ)) :
    (scoredExamples pairs ≠ [] →
      precision_recall_at_3 pairs =
        (listMean ((scoredExamples pairs).map
           (fun p => (hitsAt3 p.1 p.2 : ℚ) / 3)),
         listMean ((scoredExamples pairs).map
           (fun p => (hitsAt3 p.1 p.2 : ℚ) / (trueIndices p.1).length))))
    ∧ (∀ t s, trueIndices t = [] →
        precision_recall_at_3 ((t, s) :: pairs) =
          precision_recall_at_3 pairs) := by
  constructor
  · intro h
    have hmap : (scoredExamples pairs).map
        (fun p => (hitsAt3 p.1 p.2 : ℚ) / 3) ≠ [] := by
      simpa using h
    simp [precision_recall_at_3, prLists_eq_maps, hmap]
  · intro t s h
    simp [precision_recall_at_3, prLists, h]

/-- Witness for C3 at a concrete evaluation set: two examples, the
second with an empty true set; the reported pair is the mean over the
single scored example, and the empty-true-set example drops out. -/
theorem C3_witness :
    (precision_recall_at_3 [([1, 0, 1, 0], [9, 1, 8, 2]), ([0, 0, 0, 0], [5, 5, 5, 5])] =
      (listMean ((scoredExamples [([1, 0, 1, 0], [9, 1, 8, 2]), ([0, 0, 0, 0], [5, 5, 5, 5])]).map
         (fun p => (hitsAt3 p.1 p.2 : ℚ) / 3)),
       listMean ((scoredExamples [([1, 0, 1, 0], [9, 1, 8, 2]), ([0, 0, 0, 0], [5, 5, 5, 5])]).map
         (fun p => (hitsAt3 p.1 p.2 : ℚ) / (trueIndices p.1).length))))
    ∧ precision_recall_at_3 (([0, 0, 0, 0], [5, 5, 5, 5]) :: [([1, 0, 1, 0], [9, 1, 8, 2])]) =
        precision_recall_at_3 [([1, 0, 1, 0], [9, 1, 8, 2])] :=
  ⟨(C3_precision_recall_at_3 _).1 (by decide),
   (C3_precision_recall_at_3 _).2 _ _ (by decide)⟩

theorem argsortAsc_perm (s : List ℚ) :
    (argsortAsc s).Perm (List.range s.length) :=
  List.perm_insertionSort _ _

theorem argsortAsc_sorted (s : List ℚ) :
    List.Pairwise (argsortLe s) (argsortAsc s) :=
  List.sorted_insertionSort _ _

theorem argsortAsc_nodup (s : List ℚ) : (argsortAsc s).Nodup :=
  (argsortAsc_perm s).nodup_iff.mpr (List.nodup_range _)

theorem argsortAsc_length (s : List ℚ) :
    (argsortAsc s).length = s.length :=
  ((argsortAsc_perm s).length_eq).trans (List.length_range _)

theorem mem_argsortAsc (s : List ℚ) (i : Nat) :
    i ∈ argsortAsc s ↔ i < s.length :=
  ((argsortAsc_perm s).mem_iff).trans List.mem_range

theorem topK3_sublist (s : List ℚ) : (topK3 s).Sublist (argsortAsc s) :=
  List.drop_sublist _ _

theorem topK3_sorted (s : List ℚ) :
    List.Pairwise (argsortLe s) (topK3 s) :=
  List.Pairwise.sublist (topK3_sublist s) (argsortAsc_sorted s)

theorem topK3_nodup (s : List ℚ) : (topK3 s).Nodup :=
  (argsortAsc_nodup s).sublist (topK3_sublist s)

theorem topK3_length (s : List ℚ) : (topK3 s).length = min 3 s.length := by
  have h := argsortAsc_length s
  simp only [topK3, List.length_drop, h]
  omega

theorem mem_topK3_lt (s : List ℚ) (i : Nat) (h : i ∈ topK3 s) :
    i < s.length :=
  (mem_argsortAsc s i).mp ((topK3_sublist s).mem h)

/-- Indices left out of the top-3 slice rank no higher than those kept:
for every index `j` of the score row not among `topK3 s` and every
`i ∈ topK3 s`, `argsortLe s j i`. -/
theorem topK3_dominates (s : List ℚ) (j : Nat) (hj : j < s.length)
    (hnot : j ∉ topK3 s) : ∀ i ∈ topK3 s, argsortLe s j i := by
  intro i hi
  have hsplit :
      (argsortAsc s).take ((argsortAsc s).length - 3) ++ topK3 s =
        argsortAsc s := List.take_append_drop _ _
  have hsorted := argsortAsc_sorted s
  rw [← hsplit] at hsorted
  have hcross := (List.pairwise_append.mp hsorted).2.2
  have hjmem : j ∈ argsortAsc s := (mem_argsortAsc s j).mpr hj
  rw [← hsplit] at hjmem
  rcases List.mem_append.mp hjmem with hjtake | hjdrop
  · exact hcross j hjtake i hi
  · exact absurd hjdrop hnot

/-- C8 counterexample: on an all-tied score row the inference path
returns the keys in reverse stored order, not the first three keys of
the stored tag list as the claim's tie-break describes. -/
theorem C8_counterexample :
    inferPressureTop3 ["a", "b", "c", "d"] [1, 1, 1, 1] = ["d", "c", "b"]
    ∧ claimedPressureTop3 ["a", "b", "c", "d"] [1, 1, 1, 1] = ["a", "b", "c"]
    ∧ inferPressureTop3 ["a", "b", "c", "d"] [1, 1, 1, 1] ≠
        claimedPressureTop3 ["a", "b", "c", "d"] [1, 1, 1, 1] := by
  refine ⟨by decide, by decide, by decide⟩

/-- C8 as amended: the inference path returns the keys of the top-3
indices ranked by score descending, but ties between equal scores are
broken toward the tag **later** in the stored sorted tag list — the
selected indices dominate every unselected index under (score, then
reverse position), and are listed by descending score with reverse
position breaking ties. -/
theorem C8_amended_pressure_top3 (pressureKeys : List String)
    (scores : List ℚ) :
    inferPressureTop3 pressureKeys scores =
      (top3Desc scores).map
        (fun i => pressureKeys.getD i inferPressureTop3.emptyKey)
    ∧ (top3Desc scores).length = min 3 scores.length
    ∧ (top3Desc scores).Nodup
    ∧ (∀ i ∈ top3Desc scores, i < scores.length)
    ∧ List.Pairwise
        (fun i j => scoreAt scores j < scoreAt scores i ∨
          (scoreAt scores i = scoreAt scores j ∧ j < i)) (top3Desc scores)
    ∧ (∀ j, j < scores.length → j ∉ top3Desc scores →
        ∀ i ∈ top3Desc scores, scoreAt scores j < scoreAt scores i ∨
          (scoreAt scores j = scoreAt scores i ∧ j < i)) := by
  refine ⟨rfl, ?_, ?_, ?_, ?_, ?_⟩
  · simpa [top3Desc] using topK3_length scores
  · simpa [top3Desc, List.nodup_reverse] using topK3_nodup scores
  · intro i hi
    exact mem_topK3_lt scores i (by simpa [top3Desc] using hi)
  · have hstrict :
        List.Pairwise (fun i j => argsortLe scores i j ∧ i ≠ j) (topK3 scores) :=
      (topK3_sorted scores).and (topK3_nodup scores)
    rw [top3Desc, List.pairwise_reverse]
    refine hstrict.imp ?_
    intro a b hab
    rcases hab.1 with h | ⟨he, hle⟩
    · exact Or.inl h
    · exact Or.inr ⟨he.symm, Nat.lt_of_le_of_ne hle hab.2⟩
  · intro j hj hjnot i hi
    have hi3 : i ∈ topK3 scores := by simpa [top3Desc] using hi
    have hjnot3 : j ∉ topK3 scores := by simpa [top3Desc] using hjnot
    have hne : j ≠ i := fun he => hjnot3 (he ▸ hi3)
    rcases topK3_dominates scores j hj hjnot3 i hi3 with h | ⟨he, hle⟩
    · exact Or.inl h
    · exact Or.inr ⟨he, Nat.lt_of_le_of_ne hle hne⟩

/-- Witness for C8 at a concrete input: four tags with distinct scores;
the returned keys are the three highest-scored, descending. -/
theorem C8_witness :
    inferPressureTop3 ["a", "b", "c", "d"] [5, 9, 7, 8] =
      (top3Desc [5, 9, 7, 8]).map
        (fun i => (["a", "b", "c", "d"] : List String).getD i
          inferPressureTop3.emptyKey)
    ∧ (top3Desc [(5 : ℚ), 9, 7, 8]).length = min 3 4 :=
  ⟨(C8_amended_pressure_top3 ["a", "b", "c", "d"] [5, 9, 7, 8]).1, by
    have h := (C8_amended_pressure_top3 ["a", "b", "c", "d"] [5, 9, 7, 8]).2.1
    simpa using h⟩

theorem idx_nonsafe_iff (t : String) (h : t ∈ class_names) :
    (t ≠ "stable" ∧ t ≠ "unknown") ↔
      (class_to_idx t ≠ class_to_idx "stable" ∧
        class_to_idx t ≠ class_to_idx "unknown") := by
  fin_cases h <;> decide

theorem idx_pred_stable_iff (p : String) (h : p ∈ class_names) :
    p = "stable" ↔ class_to_idx p = class_to_idx "stable" := by
  fin_cases h <;> decide

/-- Over label pairs drawn from the class set, the index-level loop of
`train.py` / `src/lib/learning/evaluate.py` counts exactly the examples
whose true class is neither "stable" nor "unknown" (denominator), and
among them those predicted "stable" (numerator). -/
theorem falseSafeCounts_map (pairs : List (String × String))
    (h : ∀ q ∈ pairs, q.1 ∈ class_names ∧ q.2 ∈ class_names) :
    falseSafeCounts
        (pairs.map (fun q => (class_to_idx q.1, class_to_idx q.2))) =
      ((pairs.filter (fun q => q.1 ≠ "stable" ∧ q.1 ≠ "unknown")).length,
       ((pairs.filter (fun q => q.1 ≠ "stable" ∧ q.1 ≠ "unknown")).filter
          (fun q => q.2 = "stable")).length) := by
  induction pairs with
  | nil => rfl
  | cons hd tl ih =>
    obtain ⟨t, p⟩ := hd
    have hhd := h (t, p) (List.mem_cons_self _ _)
    have iht := ih (fun q hq => h q (List.mem_cons_of_mem _ hq))
    by_cases hu : t ≠ "stable" ∧ t ≠ "unknown"
    · have hu' := (idx_nonsafe_iff t hhd.1).mp hu
      by_cases hp : p = "stable"
      · have hp' := (idx_pred_stable_iff p hhd.2).mp hp
        simp [falseSafeCounts, List.filter, hu, hu', hp, hp', iht]
      · have hp' : ¬class_to_idx p = class_to_idx "stable" := fun c =>
          hp ((idx_pred_stable_iff p hhd.2).mpr c)
        simp [falseSafeCounts, List.filter, hu, hu', hp, hp', iht]
    · have hu' : ¬(class_to_idx t ≠ class_to_idx "stable" ∧
          class_to_idx t ≠ class_to_idx "unknown") := fun c =>
        hu ((idx_nonsafe_iff t hhd.1).mpr c)
      simp [falseSafeCounts, List.filter, hu, hu', iht]

/-- C1: the training harness and the library evaluator compute the
false-safe rate exactly as the spec defines it over the class set; the
scripts evaluator does not — on the one-example set with true class
"needs_followup" predicted "stable" it reports 0.0 where the definition
(and the other two components) give 1.0. -/
theorem C1_false_safe_definition :
    (∀ pairs : List (String × String),
        (∀ q ∈ pairs, q.1 ∈ class_names ∧ q.2 ∈ class_names) →
        lib_false_safe_rate
            (pairs.map (fun q => (class_to_idx q.1, class_to_idx q.2))) =
          spec_false_safe_rate pairs)
    ∧ scripts_false_safe_rate [("needs_followup", "stable")] = 0
    ∧ spec_false_safe_rate [("needs_followup", "stable")] = 1
    ∧ lib_false_safe_rate
        [(class_to_idx "needs_followup", class_to_idx "stable")] = 1 := by
  refine ⟨?_, ?_, ?_, ?_⟩
  · intro pairs h
    unfold lib_false_safe_rate spec_false_safe_rate
    rw [falseSafeCounts_map pairs h]
  · decide
  · have h1 : ([("needs_followup", "stable")].filter
        (fun q => q.1 ≠ "stable" ∧ q.1 ≠ "unknown")) =
          [("needs_followup", "stable")] := by decide
    simp [spec_false_safe_rate, h1]
  · have hc : falseSafeCounts
        [(class_to_idx "needs_followup", class_to_idx "stable")] = (1, 1) := by
      decide
    simp [lib_false_safe_rate, hc]

/-- Witness for C1 at a concrete two-example set: the index-level
computation agrees with the spec definition. -/
theorem C1_witness :
    lib_false_safe_rate
        ([("needs_followup", "stable"), ("stable", "stable")].map
          (fun q => (class_to_idx q.1, class_to_idx q.2))) =
      spec_false_safe_rate [("needs_followup", "stable"), ("stable", "stable")] :=
  C1_false_safe_definition.1 _ (by decide)

/-- C4 counterexample: the claim's 1.0 bound fails as stated.  On the
one-example set (true "needs_followup", predicted "stable") the scripts
evaluator reports 0.0 (it counts only "confirm_mappings" ground truth);
and the harness computation reports 1/2, not 1.0, on a set where every
"needs_followup" example is predicted "stable" but a correctly handled
"confirm_mappings" example is also present. -/
theorem C4_counterexample :
    scripts_false_safe_rate [("needs_followup", "stable")] = 0
    ∧ lib_false_safe_rate
        [(class_to_idx "needs_followup", class_to_idx "stable"),
         (class_to_idx "confirm_mappings", class_to_idx "confirm_mappings")] =
        1 / 2
    ∧ (0 : ℚ) ≠ 1 ∧ (1 / 2 : ℚ) ≠ 1 := by
  refine ⟨by decide, ?_, by norm_num, by norm_num⟩
  have hc : falseSafeCounts
      [(class_to_idx "needs_followup", class_to_idx "stable"),
       (class_to_idx "confirm_mappings", class_to_idx "confirm_mappings")] =
        (2, 1) := by decide
  simp [lib_false_safe_rate, hc]

theorem falseSafeCounts_all_stable (pairs : List (Nat × Nat))
    (h : ∀ q ∈ pairs,
      q.1 ≠ class_to_idx "stable" ∧ q.1 ≠ class_to_idx "unknown" →
        q.2 = class_to_idx "stable") :
    (falseSafeCounts pairs).2 = (falseSafeCounts pairs).1 := by
  induction pairs with
  | nil => rfl
  | cons hd tl ih =>
    obtain ⟨t, p⟩ := hd
    have hhd := h (t, p) (List.mem_cons_self _ _)
    have iht := ih (fun q hq => h q (List.mem_cons_of_mem _ hq))
    by_cases hu : t ≠ class_to_idx "stable" ∧ t ≠ class_to_idx "unknown"
    · have hp : p = class_to_idx "stable" := hhd hu
      simp [falseSafeCounts, hu, hp, iht]
    · simp [falseSafeCounts, hu, iht]

/-- C4 as amended: both false-safe computations are total — an empty
denominator yields exactly 0.0 with no division — and the 1.0 bound
holds in the form the code supports: the harness/library rate is 1.0
whenever every example with non-safe ground truth (neither "stable" nor
"unknown") is predicted "stable" and at least one exists; the scripts
evaluator's rate is 1.0 whenever every "confirm_mappings" example is
predicted "stable" and at least one exists. -/
theorem C4_amended_false_safe_totality_and_bound :
    (∀ pairs : List (Nat × Nat), (falseSafeCounts pairs).1 = 0 →
        lib_false_safe_rate pairs = 0)
    ∧ (∀ pairs : List (String × String),
        (pairs.filter (fun q => q.1 == "confirm_mappings")).length = 0 →
        scripts_false_safe_rate pairs = 0)
    ∧ (∀ pairs : List (Nat × Nat),
        (∀ q ∈ pairs,
          q.1 ≠ class_to_idx "stable" ∧ q.1 ≠ class_to_idx "unknown" →
            q.2 = class_to_idx "stable") →
        0 < (falseSafeCounts pairs).1 → lib_false_safe_rate pairs = 1)
    ∧ (∀ pairs : List (String × String),
        (∀ q ∈ pairs, q.1 = "confirm_mappings" → q.2 = "stable") →
        0 < (pairs.filter (fun q => q.1 == "confirm_mappings")).length →
        scripts_false_safe_rate pairs = 1) := by
  refine ⟨?_, ?_, ?_, ?_⟩
  · intro pairs h
    simp [lib_false_safe_rate, h]
  · intro pairs h
    simp [scripts_false_safe_rate, h]
  · intro pairs h hpos
    have h2 := falseSafeCounts_all_stable pairs h
    have hne : ((falseSafeCounts pairs).1 : ℚ) ≠ 0 := by
      exact_mod_cast Nat.pos_iff_ne_zero.mp hpos
    simp [lib_false_safe_rate, hpos, h2, div_self hne]
  · intro pairs h hpos
    have hfe : pairs.filter
        (fun q => q.1 == "confirm_mappings" && q.2 == "stable") =
          pairs.filter (fun q => q.1 == "confirm_mappings") := by
      apply List.filter_congr
      intro q hq
      by_cases hc : q.1 = "confirm_mappings"
      · have hs := h q hq hc
        simp [hc, hs]
      · simp [hc]
    have hne : ((pairs.filter (fun q => q.1 == "confirm_mappings")).length : ℚ) ≠ 0 := by
      exact_mod_cast Nat.pos_iff_ne_zero.mp hpos
    simp [scripts_false_safe_rate, hpos, hfe, div_self hne]

/-- Witness for C4 at concrete sets: empty denominators give 0.0, and
all-masked sets give 1.0 under each computation's own denominator. -/
theorem C4_witness :
    lib_false_safe_rate [(2, 0), (3, 2)] = 0
    ∧ scripts_false_safe_rate [("stable", "stable")] = 0
    ∧ lib_false_safe_rate [(0, 2), (1, 2)] = 1
    ∧ scripts_false_safe_rate
        [("confirm_mappings", "stable"), ("unknown", "unknown")] = 1 :=
  ⟨C4_amended_false_safe_totality_and_bound.1 _ (by decide),
   C4_amended_false_safe_totality_and_bound.2.1 _ (by decide),
   C4_amended_false_safe_totality_and_bound.2.2.1 _ (by decide) (by decide),
   C4_amended_false_safe_totality_and_bound.2.2.2 _ (by decide) (by decide)⟩

/-- C2: the gate reports FAIL exactly when the false-safe rate exceeds
0.02 or a recorded previous precision@3 exceeds the current one by more
than 0.05; its details name each triggered condition or state that no
trigger fired; and the spec's two scenarios hold: previous 0.60 with
current 0.50 is FAIL with the precision-drop trigger, previous 0.60 with
current 0.57 is PASS with no trigger. -/
theorem C2_regression_gate (b : Option ℚ) (p : Option (ℚ × Option ℚ)) :
    regressionGate b p = claimedGate b p
    ∧ ((regressionGate b p).1 = "FAIL" ↔
        (match b with | some r => r | none => 0) > 2 / 100 ∨
          ∃ cur prev, p = some (cur, some prev) ∧ prev - cur > 5 / 100)
    ∧ regressionGate none (some (1 / 2, some (3 / 5))) =
        ("FAIL", [GateDetail.precisionDrop (1 / 10)])
    ∧ regressionGate none (some (57 / 100, some (3 / 5))) =
        ("PASS", [GateDetail.noTriggers]) := by
  refine ⟨?_, ?_, ?_, ?_⟩
  · rcases p with _ | ⟨cur, _ | prev⟩ <;>
      simp only [regressionGate, claimedGate] <;>
      split_ifs <;> simp_all
  · rcases p with _ | ⟨cur, _ | prev⟩ <;>
      simp only [regressionGate] <;>
      split_ifs <;> simp_all
    exact Or.inr ⟨cur, prev, ⟨rfl, rfl⟩, by assumption⟩
  · norm_num [regressionGate]
  · norm_num [regressionGate]

/-- Witness for C2 at concrete inputs: a 0.03 false-safe rate on its own
fails the gate, and the gate with no models passes. -/
theorem C2_witness :
    (regressionGate (some (3 / 100)) none).1 = "FAIL"
    ∧ (regressionGate none none).1 = "PASS" := by
  constructor
  · exact (C2_regression_gate (some (3 / 100)) none).2.1.mpr
      (Or.inl (by norm_num))
  · have h := (C2_regression_gate none none).2.1
    by_contra hc
    have : (regressionGate none none).1 = "FAIL" := by
      have htot := (C2_regression_gate none none).1
      simp [htot, claimedGate] at hc ⊢
      revert hc
      split_ifs <;> simp_all
    rcases h.mp this with hbad | ⟨cur, prev, hbad, _⟩
    · norm_num at hbad
    · simp at hbad

theorem sortedVersions_sorted (vs : List String) :
    List.Pairwise strLeRel (sortedVersions vs) :=
  List.sorted_insertionSort _ _

theorem sortedVersions_perm (vs : List String) :
    (sortedVersions vs).Perm vs :=
  List.perm_insertionSort _ _

/-- The last element of a `strLeRel`-sorted list dominates every
element. -/
theorem sorted_getLast_max (l : List String)
    (hs : List.Pairwise strLeRel l) (m : String)
    (hm : l.getLast? = some m) : ∀ v ∈ l, strLe v m = true := by
  intro v hv
  have hne : l ≠ [] := by rintro rfl; simp at hm
  have hlast : l.getLast hne = m := by
    rw [List.getLast?_eq_getLast l hne] at hm
    exact Option.some.inj hm
  have hsplit : l.dropLast ++ [l.getLast hne] = l :=
    List.dropLast_append_getLast hne
  rw [← hsplit] at hs hv
  rcases List.mem_append.mp hv with h | h
  · have := (List.pairwise_append.mp hs).2.2 v h (l.getLast hne) (by simp)
    rw [hlast] at this
    exact this
  · have hv' : v = m := by
      simp at h
      rw [h, hlast]
    rw [hv']
    exact charListLe_refl m.data

/-- C5 counterexample: with versions `a < b < c` and `current = a` (the
earliest recorded version, which has no immediately preceding version),
the code returns the second-to-last version `b`, while the claim as
stated returns none. -/
theorem C5_counterexample :
    previous_model_dir ["a", "b", "c"] "a" = some "b"
    ∧ claimed_previous_version ["a", "b", "c"] "a" = none
    ∧ previous_model_dir ["a", "b", "c"] "a" ≠
        claimed_previous_version ["a", "b", "c"] "a" := by
  refine ⟨by decide, by decide, by decide⟩

/-- C5 as amended: `latest_version` returns none exactly on an empty
family and otherwise the lexicographically greatest recorded version;
`previous_version` agrees with the claim whenever `current` is recorded
with a predecessor or is unrecorded, but when `current` is the earliest
recorded version the code falls through to the second-to-last recorded
version (none only when fewer than two versions exist). -/
theorem C5_amended_version_resolution (versions : List String)
    (current : String) :
    (latest_model_dir versions = none ↔ versions = [])
    ∧ (∀ m, latest_model_dir versions = some m →
        m ∈ versions ∧ ∀ v ∈ versions, strLe v m = true)
    ∧ (current ∈ sortedVersions versions →
        (sortedVersions versions).indexOf current > 0 →
        previous_model_dir versions current =
          claimed_previous_version versions current)
    ∧ (current ∉ sortedVersions versions →
        previous_model_dir versions current =
          claimed_previous_version versions current)
    ∧ (current ∈ sortedVersions versions →
        (sortedVersions versions).indexOf current = 0 →
        previous_model_dir versions current =
          (if 2 ≤ (sortedVersions versions).length then
            (sortedVersions versions).get?
              ((sortedVersions versions).length - 2)
          else none)) := by
  refine ⟨?_, ?_, ?_, ?_, ?_⟩
  · unfold latest_model_dir
    rw [List.getLast?_eq_none_iff]
    constructor
    · intro h
      exact ((sortedVersions_perm versions).symm.trans (h ▸ List.Perm.refl _)).eq_nil
    · rintro rfl
      have := (sortedVersions_perm []).eq_nil
      simp [this]
  · intro m hm
    have hmem : m ∈ sortedVersions versions := by
      have hne : sortedVersions versions ≠ [] := by
        rintro he
        rw [latest_model_dir, he] at hm
        simp at hm
      have hlast : (sortedVersions versions).getLast hne = m := by
        have := List.getLast?_eq_getLast (sortedVersions versions) hne
        rw [latest_model_dir, this] at hm
        exact Option.some.inj hm
      rw [← hlast]
      exact List.getLast_mem hne
    refine ⟨(sortedVersions_perm versions).subset hmem, ?_⟩
    intro v hv
    exact sorted_getLast_max _ (sortedVersions_sorted versions) m hm v
      ((sortedVersions_perm versions).mem_iff.mpr hv)
  · intro h1 h2
    simp [previous_model_dir, claimed_previous_version, h1, h2]
  · intro h1
    simp [previous_model_dir, claimed_previous_version, h1]
  · intro h1 h2
    simp [previous_model_dir, h1, h2]

/-- Witness for C5 at concrete families: the latest of `[b, c, a]` is
`c` and dominates all versions; the predecessor of `c` in `[a, b, c]`
agrees with the claim; an unrecorded id falls back as claimed; and the
earliest version `a` takes the fall-through branch. -/
theorem C5_witness :
    (("c" : String) ∈ ["b", "c", "a"] ∧
      ∀ v ∈ (["b", "c", "a"] : List String), strLe v "c" = true)
    ∧ previous_model_dir ["a", "b", "c"] "c" =
        claimed_previous_version ["a", "b", "c"] "c"
    ∧ previous_model_dir ["a", "b", "c"] "zz" =
        claimed_previous_version ["a", "b", "c"] "zz"
    ∧ previous_model_dir ["a", "b", "c"] "a" =
        (if 2 ≤ (sortedVersions ["a", "b", "c"]).length then
          (sortedVersions ["a", "b", "c"]).get?
            ((sortedVersions ["a", "b", "c"]).length - 2)
        else none) :=
  ⟨(C5_amended_version_resolution ["b", "c", "a"] "x").2.1 "c" (by decide),
   (C5_amended_version_resolution ["a", "b", "c"] "c").2.2.1 (by decide)
     (by decide),
   (C5_amended_version_resolution ["a", "b", "c"] "zz").2.2.2.1 (by decide),
   (C5_amended_version_resolution ["a", "b", "c"] "a").2.2.2.2 (by decide)
     (by decide)⟩

/-- C7: the calibrator's regression target is the mean of the observed
percentile values of an example's benchmark observations, with the
neutral default 50.0 when none exist (library trainer); the scripts
trainer assigns a target only to examples it keeps, and every kept
example has a nonempty set of numeric percentile observations whose
mean is its target. -/
theorem C7_calibrator_targets :
    (∀ exs : List (List ℚ), lib_calibrator_targets exs =
        exs.map (fun ms => if ms = [] then 50 else listMean ms))
    ∧ (∀ exs : List (List PField), ∀ pr ∈ extract_targets exs,
        pr.1 ∈ exs ∧ numericPercentiles pr.1 ≠ [] ∧
          pr.2 = listMean (numericPercentiles pr.1)) := by
  constructor
  · intro exs
    unfold lib_calibrator_targets
    apply List.map_congr_left
    intro ms _
    by_cases h : ms = [] <;> simp [h]
  · intro exs
    induction exs with
    | nil => intro pr hpr; simp [extract_targets] at hpr
    | cons obs rest ih =>
      intro pr hpr
      simp only [extract_targets] at hpr
      by_cases h1 : obs = []
      · rw [if_pos h1] at hpr
        obtain ⟨a, b, c⟩ := ih pr hpr
        exact ⟨List.mem_cons_of_mem _ a, b, c⟩
      · rw [if_neg h1] at hpr
        by_cases h2 : numericPercentiles obs = []
        · rw [if_pos h2] at hpr
          obtain ⟨a, b, c⟩ := ih pr hpr
          exact ⟨List.mem_cons_of_mem _ a, b, c⟩
        · rw [if_neg h2] at hpr
          rcases List.mem_cons.mp hpr with he | hm
          · rw [he]
            exact ⟨List.mem_cons_self _ _, h2, rfl⟩
          · obtain ⟨a, b, c⟩ := ih pr hm
            exact ⟨List.mem_cons_of_mem _ a, b, c⟩

/-- Witness for C7 at a concrete dataset: of two examples, one with two
percentile observations and one with none, only the first is kept, with
target 40 = mean(30, 50). -/
theorem C7_witness :
    numericPercentiles [PField.pNum 30, PField.pNum 50] ≠ []
    ∧ (40 : ℚ) = listMean (numericPercentiles [PField.pNum 30, PField.pNum 50]) := by
  have hE : extract_targets [[PField.pNum 30, PField.pNum 50], []] =
      [([PField.pNum 30, PField.pNum 50], 40)] := by
    norm_num [extract_targets, numericPercentiles, List.filterMap]
    simp
  have h := C7_calibrator_targets.2 [[PField.pNum 30, PField.pNum 50], []]
    ([PField.pNum 30, PField.pNum 50], (40 : ℚ))
    (by rw [hE]; exact List.mem_singleton.mpr rfl)
  exact ⟨h.2.1, h.2.2⟩

/-- C10: the cohort data loaders include an example in the feature
matrix exactly when its features mapping contains every numeric feature
key; all other examples are dropped; and the batch median imputation
rewrites exactly the NaN cells (to the column's nanmedian over the
present values), leaving finite cells untouched. -/
theorem C10_cohort_loading :
    (∀ keys exs, load_training_rows keys exs =
        (exs.filter (fun ex => keys.all (fun k => hasKey ex k))).map
          (cohortRow keys))
    ∧ (∀ keys : List String, ∀ exs : List (List (String × EncVal)), ∀ r,
        (r ∈ load_training_rows keys exs ↔
          ∃ ex, (ex ∈ exs ∧ ∀ k ∈ keys, hasKey ex k = true) ∧
            cohortRow keys ex = r))
    ∧ (∀ rows : List (List EncVal), ∀ i, i < rows.length →
        ∀ j, j < (rows.getD i []).length →
        ((imputeMatrix rows).getD i []).getD j (.fin 0) =
          match (rows.getD i []).getD j (.fin 0) with
          | .fin q => .fin q
          | .nan => nanmedian (colAt rows j)) := by
  have h1 : ∀ (keys : List String) exs, load_training_rows keys exs =
      (exs.filter (fun ex => keys.all (fun k => hasKey ex k))).map
        (cohortRow keys) := by
    intro keys exs
    induction exs with
    | nil => rfl
    | cons ex rest ih =>
      by_cases h : keys.all (fun k => hasKey ex k)
      · simp [load_training_rows, List.filter, h, ih]
      · simp only [Bool.not_eq_true] at h
        simp [load_training_rows, List.filter, h, ih]
  refine ⟨h1, ?_, ?_⟩
  · intro keys exs r
    rw [h1]
    simp [List.mem_map, List.mem_filter, List.all_eq_true, and_assoc]
  · intro rows i hi j hj
    have hrow : (imputeMatrix rows).getD i [] =
        ((rows.getD i []).enum).map (fun p =>
          match p.2 with
          | .fin q => EncVal.fin q
          | .nan => nanmedian (colAt rows p.1)) := by
      have hlen : i < (imputeMatrix rows).length := by
        simpa [imputeMatrix] using hi
      rw [List.getD_eq_getElem _ _ hlen, List.getD_eq_getElem _ _ hi]
      simp [imputeMatrix]
    rw [hrow]
    have hjlen : j < (((rows.getD i []).enum).map (fun p =>
        match p.2 with
        | .fin q => EncVal.fin q
        | .nan => nanmedian (colAt rows p.1))).length := by
      simpa using hj
    rw [List.getD_eq_getElem _ _ hjlen, List.getD_eq_getElem _ _ hj]
    simp [List.getElem_enum]

/-- Witness for C10 at a concrete matrix: the NaN cell of the first row
is rewritten to its column's nanmedian; the finite cells stay. -/
theorem C10_witness :
    ((imputeMatrix [[EncVal.fin 1, EncVal.nan],
        [EncVal.fin 3, EncVal.fin 7]]).getD 0 []).getD 1 (.fin 0) =
      match (([[EncVal.fin 1, EncVal.nan], [EncVal.fin 3, EncVal.fin 7]] :
          List (List EncVal)).getD 0 []).getD 1 (.fin 0) with
      | .fin q => .fin q
      | .nan => nanmedian
          (colAt [[EncVal.fin 1, EncVal.nan], [EncVal.fin 3, EncVal.fin 7]] 1) :=
  C10_cohort_loading.2.2 _ 0 (by decide) 1 (by decide)

end Spec2Proof
